import Mathlib

/-!
Verification of the authentication/token lifecycle subsystem of the
Outlook-MCP server (`src/auth/token-manager.js`, the `AccountManager`
class in the same file, and `ensureAuthenticated` in `src/auth/index.js`).

The JavaScript is embedded shallowly:
  * JSON / JS objects that may lack a field use `Option`; JS truthiness of a
    string-or-absent value is `truthyStr` (absent and `""` are falsy), of a
    number-or-absent value `truthyNat` (absent and `0` are falsy), and the
    JS `x || d` default on numbers is `jsOrNat`.
  * A JS expression that can be a string, `null` or `undefined` is `JsStr`.
  * Timestamps are `Nat` milliseconds; `Date.now()` is an explicit `now`
    parameter threaded through each call.
  * The filesystem is explicit state: the legacy store's file is a
    `DiskState`, the registry's directory is a `RegistryDisk` (index file
    plus one token file per account id).
  * The network exchange performed by `refreshAccessToken` is split into the
    pure response-processing logic (`refreshAccessToken` below, taking the
    status code / parsed body / network-error flag as inputs) and, where a
    caller only observes the settled outcome, an oracle
    `String → Option TokenRecord` giving the outcome of the exchange.
  * `loadTokenCache` is not `async` in the source, yet on the
    expired-with-refresh-token path it returns the *Promise* produced by
    `refreshAccessToken` to callers that do not await it; the constructor
    `LoadResult.pending` models that un-awaited promise object (all of whose
    data fields read as `undefined`).
Mutations of the module-level `cachedTokens` variable inside
`loadTokenCache` are elided (no claim reads the cache that `loadTokenCache`
would have written); `saveTokenCache`, whose in-memory write is the point of
the round-trip property, models them explicitly.
-/

namespace OutlookMCP

/-- JS truthiness of a string field that may be absent: `undefined` and the
empty string are falsy. -/
def truthyStr : Option String → Bool
  | none => false
  | some s => !(s == "")

/-- JS truthiness of a numeric field that may be absent: `undefined` and `0`
are falsy. -/
def truthyNat : Option Nat → Bool
  | none => false
  | some n => !(n == 0)

/-- JS `x || d` for a numeric field that may be absent. -/
def jsOrNat : Option Nat → Nat → Nat
  | none, d => d
  | some n, d => if n = 0 then d else n

/-- A JS value that is a string, `null`, or `undefined`. -/
inductive JsStr where
  | undef
  | jsnull
  | str (s : String)
deriving Repr, DecidableEq

/-- Reading a string-or-absent field as a JS value (`undefined` if absent). -/
def jsOfOpt : Option String → JsStr
  | none => .undef
  | some s => .str s

/-- JS truthiness of a `JsStr` (`undefined`, `null` and `""` are falsy). -/
def jsTruthy : JsStr → Bool
  | .str s => !(s == "")
  | _ => false

/-- The token record shape persisted by the system
(`{access_token, refresh_token, expires_at, scope}`), every field possibly
absent as in lenient JSON. -/
structure TokenRecord where
  access_token : Option String
  refresh_token : Option String
  expires_at : Option Nat
  scope : Option String
deriving Repr, DecidableEq

/-- The legacy token file: absent, present but unparseable, or a record. -/
inductive DiskState where
  | absent
  | unparseable
  | record (tr : TokenRecord)
deriving Repr, DecidableEq

/-- State of the legacy single-account store: the process-wide
`global.outlookTokens` slot, the module-level `cachedTokens` variable, and
the on-disk token file. -/
structure LegacyState where
  globalSlot : Option TokenRecord
  cached : Option TokenRecord
  disk : DiskState
deriving Repr, DecidableEq

/-- What `loadTokenCache()` hands its caller: `null`, a token record, or the
un-awaited `Promise` returned on the expired-with-refresh-token path. -/
inductive LoadResult where
  | nothing
  | found (tr : TokenRecord)
  | pending (refreshToken : String)
deriving Repr, DecidableEq

/-- `fiveMinutes = 5 * 60 * 1000` from the source. -/
def fiveMinutes : Nat := 5 * 60 * 1000

/-- `loadTokenCache` (src/auth/token-manager.js:15-87): returns the global
slot unchecked if present; otherwise reads the file, returns `null` for a
missing/unparseable file or a falsy `access_token`; if
`now > (expires_at || 0)` it returns `refreshAccessToken(refresh_token)`
(a promise — `pending`) when a refresh token is present and `null`
otherwise; else the record itself. -/
def loadTokenCache (st : LegacyState) (now : Nat) : LoadResult :=
  match st.globalSlot with
  | some tr => .found tr
  | none =>
    match st.disk with
    | .absent => .nothing
    | .unparseable => .nothing
    | .record tr =>
      if !(truthyStr tr.access_token) then .nothing
      else
        let expiresAt := jsOrNat tr.expires_at 0
        if now > expiresAt then
          if truthyStr tr.refresh_token then .pending ((tr.refresh_token).getD "")
          else .nothing
        else .found tr

/-- `saveTokenCache` (src/auth/token-manager.js:94-117): unconditionally
writes the global slot and the module cache, then best-effort writes the
file (a failing disk write, `diskWriteFails`, is swallowed); returns true. -/
def saveTokenCache (tr : TokenRecord) (diskWriteFails : Bool) (st : LegacyState) :
    LegacyState × Bool :=
  let st1 : LegacyState := { st with globalSlot := some tr, cached := some tr }
  if diskWriteFails then (st1, true)
  else ({ st1 with disk := .record tr }, true)

/-- The response body of the OAuth refresh exchange, as parsed JSON
(every field possibly absent). -/
structure RefreshResponse where
  access_token : Option String
  refresh_token : Option String
  expires_in : Option Nat
  scope : Option String
deriving Repr, DecidableEq

/-- `refreshAccessToken` response handling (src/auth/token-manager.js:124-196
and, character-for-character the same logic, `AccountManager.refreshAccessToken`
at lines 497-565): a network error resolves to `null`; an unparseable body
resolves to `null`; on status 200 with a truthy `access_token` the parsed
response is spread into a record with
`expires_at = now + (expires_in || 3600) * 1000`; anything else resolves to
`null`. -/
def refreshAccessToken (now : Nat) (netError : Bool) (statusCode : Nat)
    (parsed : Option RefreshResponse) : Option TokenRecord :=
  if netError then none
  else
    match parsed with
    | none => none
    | some r =>
      if statusCode == 200 && truthyStr r.access_token then
        some { access_token := r.access_token
               refresh_token := r.refresh_token
               expires_at := some (now + (jsOrNat r.expires_in 3600) * 1000)
               scope := r.scope }
      else none

/-- `getAccessToken` (sync, src/auth/token-manager.js:202-220): serves the
module cache when it holds a truthy `access_token` (the fire-and-forget
proactive refresh it may start has no effect on the returned value and is
elided); otherwise `const tokens = loadTokenCache(); return tokens ?
tokens.access_token : null` — on the `pending` path the promise object is
truthy and its `access_token` field is `undefined`. -/
def getAccessToken (st : LegacyState) (now : Nat) : JsStr :=
  match st.cached with
  | some c =>
    if truthyStr c.access_token then jsOfOpt c.access_token
    else
      match loadTokenCache st now with
      | .found tr => jsOfOpt tr.access_token
      | .pending _ => .undef
      | .nothing => .jsnull
  | none =>
    match loadTokenCache st now with
    | .found tr => jsOfOpt tr.access_token
    | .pending _ => .undef
    | .nothing => .jsnull

/-- `getAccessTokenAsync` (src/auth/token-manager.js:226-244): calls
`loadTokenCache()` with NO await. A `null` result returns `null`. When the
result is the un-awaited promise (`pending`), `tokens.expires_at` and
`tokens.refresh_token` read as `undefined`, so the refresh branch is skipped
and `tokens.access_token` — `undefined` — is returned. When the result is a
record within the five-minute window with a truthy refresh token, the
refresh exchange is awaited (`legRefresh` gives its outcome) and its
`access_token` (or `null` on failure) is returned; otherwise the record's
own `access_token`. -/
def getAccessTokenAsync (st : LegacyState)
    (legRefresh : String → Option TokenRecord) (now : Nat) : JsStr :=
  match loadTokenCache st now with
  | .nothing => .jsnull
  | .pending _ => .undef
  | .found tr =>
    let expiresAt := jsOrNat tr.expires_at 0
    if decide (now + fiveMinutes > expiresAt) && truthyStr tr.refresh_token then
      match legRefresh ((tr.refresh_token).getD "") with
      | some nt => jsOfOpt nt.access_token
      | none => .jsnull
    else jsOfOpt tr.access_token

/-- An entry of the registry's in-memory `Map` (the value stored under key
`id`; `Map.set` in the source always uses `account.id` as the key). -/
structure Account where
  id : String
  userPrincipalName : String
  displayName : String
  createdAt : String
  lastUsed : String
  tokens : Option TokenRecord
deriving Repr, DecidableEq

/-- Association-list write modelling writing the file named by a key
(overwrite if present, create otherwise). -/
def setAssoc {α : Type} (k : String) (v : α) : List (String × α) → List (String × α)
  | [] => [(k, v)]
  | p :: rest => if p.1 = k then (k, v) :: rest else p :: setAssoc k v rest

/-- Association-list delete modelling `fs.unlinkSync` of the file named by a
key. -/
def removeAssoc {α : Type} (k : String) : List (String × α) → List (String × α)
  | [] => []
  | p :: rest => if p.1 = k then removeAssoc k rest else p :: removeAssoc k rest

/-- Association-list read modelling reading the file named by a key. -/
def lookupAssoc {α : Type} (k : String) : List (String × α) → Option α
  | [] => none
  | p :: rest => if p.1 = k then some p.2 else lookupAssoc k rest

/-- The on-disk layout of the `.outlook-mcp-accounts` directory: the
`accounts.json` index (account info sans tokens, keyed by id) and one
`<id>.tokens.json` file per account. -/
structure RegistryDisk where
  indexFile : List (String × Account)
  tokenFiles : List (String × TokenRecord)
deriving Repr, DecidableEq

/-- Full `AccountManager` state: the in-memory `Map` in insertion order plus
the directory contents. -/
structure RegistryState where
  accounts : List Account
  disk : RegistryDisk
deriving Repr, DecidableEq

namespace AccountManager

/-- The account info written to the index file: the account minus its
`tokens` field (`const { tokens, ...accountInfo } = account`). -/
def stripTokens (a : Account) : Account := { a with tokens := none }

/-- `saveAccountTokens` (token-manager.js:374-382): writes
`<accountId>.tokens.json`. -/
def saveAccountTokens (accountId : String) (tokens : TokenRecord)
    (d : RegistryDisk) : RegistryDisk :=
  { d with tokenFiles := setAssoc accountId tokens d.tokenFiles }

/-- The per-account body of the `saveAccounts` loop: accounts holding tokens
get their token file written. -/
def writeTokenFilesFold (accounts : List Account) (d : RegistryDisk) : RegistryDisk :=
  accounts.foldl
    (fun d a =>
      match a.tokens with
      | some t => saveAccountTokens a.id t d
      | none => d)
    d

/-- `saveAccounts` (token-manager.js:324-345): writes every token-holding
account's token file and then the index document keyed by account id, each
value the account without its `tokens` field. -/
def saveAccounts (st : RegistryState) : RegistryState :=
  let d1 := writeTokenFilesFold st.accounts st.disk
  { st with
    disk := { d1 with indexFile := st.accounts.map (fun a => (a.id, stripTokens a)) } }

/-- `loadAccountTokens` (token-manager.js:350-369): reads the account's token
file; a record with a truthy `expires_at` in the past
(`tokens.expires_at && now > tokens.expires_at`) is treated as absent. -/
def loadAccountTokens (d : RegistryDisk) (accountId : String) (now : Nat) :
    Option TokenRecord :=
  match lookupAssoc accountId d.tokenFiles with
  | none => none
  | some t =>
    if truthyNat t.expires_at && decide (now > jsOrNat t.expires_at 0) then none
    else some t

/-- `addAccount` (token-manager.js:387-403): builds the account with
`displayName = displayName || userPrincipalName`,
`createdAt = lastUsed = now`, stores it in the `Map` under the freshly
generated id (`newId` stands for the `randomUUID()` result; `Map.set`
overwrites in place on an — practically impossible — collision and appends
otherwise), persists via `saveAccounts`, and returns the id. -/
def addAccount (newId : String) (userPrincipalName : String)
    (displayName : Option String) (tokens : Option TokenRecord)
    (nowIso : String) (st : RegistryState) : String × RegistryState :=
  let account : Account :=
    { id := newId
      userPrincipalName := userPrincipalName
      displayName := if truthyStr displayName then displayName.getD "" else userPrincipalName
      createdAt := nowIso
      lastUsed := nowIso
      tokens := tokens }
  let accounts1 :=
    if st.accounts.any (fun a => a.id == newId) then
      st.accounts.map (fun a => if a.id == newId then account else a)
    else st.accounts ++ [account]
  (newId, saveAccounts { st with accounts := accounts1 })

/-- `removeAccount` (token-manager.js:408-428): for a known id, deletes the
`Map` entry, unlinks the token file, persists via `saveAccounts` and returns
true; otherwise returns false without touching anything. -/
def removeAccount (accountId : String) (st : RegistryState) :
    RegistryState × Bool :=
  if st.accounts.any (fun a => a.id == accountId) then
    let accounts1 := st.accounts.filter (fun a => !(a.id == accountId))
    let disk1 : RegistryDisk :=
      { st.disk with tokenFiles := removeAssoc accountId st.disk.tokenFiles }
    (saveAccounts { accounts := accounts1, disk := disk1 }, true)
  else (st, false)

/-- `updateAccountTokens` (token-manager.js:433-444): for a known id,
replaces the entry's token record, bumps `lastUsed`, writes the token file
and persists via `saveAccounts`, returning true; otherwise false. -/
def updateAccountTokens (accountId : String) (tokens : TokenRecord)
    (nowIso : String) (st : RegistryState) : RegistryState × Bool :=
  if st.accounts.any (fun a => a.id == accountId) then
    let accounts1 := st.accounts.map (fun a =>
      if a.id == accountId then { a with tokens := some tokens, lastUsed := nowIso } else a)
    let disk1 := saveAccountTokens accountId tokens st.disk
    (saveAccounts { accounts := accounts1, disk := disk1 }, true)
  else (st, false)

/-- `getAccount` (token-manager.js:449-451): `Map.get`. -/
def getAccount (accountId : String) (st : RegistryState) : Option Account :=
  st.accounts.find? (fun a => a.id == accountId)

/-- The inline validity test used by `getAllAccounts` and
`getDefaultAccount`:
`account.tokens && account.tokens.access_token && account.tokens.expires_at > Date.now()`
(an absent `expires_at` compares as false). -/
def tokensValid (a : Account) (now : Nat) : Bool :=
  match a.tokens with
  | none => false
  | some t =>
    truthyStr t.access_token &&
      (match t.expires_at with
       | none => false
       | some e => decide (e > now))

/-- The projection returned by `getAllAccounts`. -/
structure AccountSummary where
  id : String
  userPrincipalName : String
  displayName : String
  createdAt : String
  lastUsed : String
  hasValidTokens : Bool
deriving Repr, DecidableEq

/-- `getAllAccounts` (token-manager.js:456-466). -/
def getAllAccounts (accs : List Account) (now : Nat) : List AccountSummary :=
  accs.map (fun a =>
    { id := a.id
      userPrincipalName := a.userPrincipalName
      displayName := a.displayName
      createdAt := a.createdAt
      lastUsed := a.lastUsed
      hasValidTokens := tokensValid a now })

/-- `AccountManager.getAccessToken` (token-manager.js:471-492): `null` for an
unknown id or an account without tokens; a record inside the five-minute
window with a truthy refresh token triggers an awaited refresh exchange
(outcome given by the oracle `regRefresh`, keyed by account id as in
`this.refreshAccessToken(accountId, …)`), returning the new `access_token`
on success and `null` on failure; otherwise the stored `access_token` is
returned directly. -/
def getAccessToken (accountId : String) (accs : List Account)
    (regRefresh : String → Option TokenRecord) (now : Nat) : JsStr :=
  match accs.find? (fun a => a.id == accountId) with
  | none => .jsnull
  | some account =>
    match account.tokens with
    | none => .jsnull
    | some t =>
      let expiresAt := jsOrNat t.expires_at 0
      if decide (now + fiveMinutes > expiresAt) && truthyStr t.refresh_token then
        match regRefresh accountId with
        | some nt => jsOfOpt nt.access_token
        | none => .jsnull
      else jsOfOpt t.access_token

/-- `getDefaultAccount` (token-manager.js:582-590): first entry of the `Map`,
in insertion order, whose tokens pass the validity test. -/
def getDefaultAccount (accs : List Account) (now : Nat) : Option Account :=
  accs.find? (fun a => tokensValid a now)

end AccountManager

/-- `ensureAuthenticated` (src/auth/index.js:15-46): `forceNew` throws
immediately; a truthy `accountId` delegates to the registry and throws when
it yields a falsy token; otherwise the default-account path is tried and, if
it yields no truthy token, the legacy `getAccessTokenAsync` fallback, with a
final `Authentication required - no accounts configured` error. Errors model
the thrown `Error` messages. -/
def ensureAuthenticated (accountId : Option String) (forceNew : Bool)
    (reg : List Account) (regRefresh : String → Option TokenRecord)
    (legacy : LegacyState) (legRefresh : String → Option TokenRecord)
    (now : Nat) : Except String String :=
  if forceNew then .error "Authentication required"
  else if truthyStr accountId then
    let aid := accountId.getD ""
    match AccountManager.getAccessToken aid reg regRefresh now with
    | .str s =>
      if !(s == "") then .ok s
      else .error ("Authentication required for account " ++ aid)
    | _ => .error ("Authentication required for account " ++ aid)
  else
    let viaDefault : Option String :=
      match AccountManager.getDefaultAccount reg now with
      | some acc =>
        match AccountManager.getAccessToken acc.id reg regRefresh now with
        | .str s => if !(s == "") then some s else none
        | _ => none
      | none => none
    match viaDefault with
    | some s => .ok s
    | none =>
      match getAccessTokenAsync legacy legRefresh now with
      | .str s =>
        if !(s == "") then .ok s
        else .error "Authentication required - no accounts configured"
      | _ => .error "Authentication required - no accounts configured"

/-- Replacing every stored secret string by a fixed placeholder, keeping
only its JS truthiness. -/
def scrubString (s : String) : String := if s = "" then "" else "###"

/-- An account with its raw token material blanked out. -/
def scrubTokens (a : Account) : Account :=
  { a with
    tokens := a.tokens.map (fun t =>
      { t with
        access_token := t.access_token.map scrubString
        refresh_token := t.refresh_token.map scrubString }) }

/-! ## Helper lemmas -/

/-- A successful `find?` splits the list at the first hit. -/
theorem find_some_decomp {α : Type} (p : α → Bool) (l : List α) (a : α)
    (h : l.find? p = some a) :
    p a = true ∧ ∃ l1 l2, l = l1 ++ a :: l2 ∧ ∀ b ∈ l1, p b = false := by
  induction l with
  | nil => simp [List.find?] at h
  | cons x xs ih =>
    by_cases hx : p x = true
    · rw [List.find?_cons_of_pos _ hx] at h
      cases h
      exact ⟨hx, [], xs, rfl, by simp⟩
    · rw [List.find?_cons_of_neg _ (by simpa using hx)] at h
      obtain ⟨hpa, l1, l2, hsplit, hall⟩ := ih h
      refine ⟨hpa, x :: l1, l2, by rw [hsplit]; rfl, ?_⟩
      intro b hb
      rcases List.mem_cons.mp hb with hb | hb
      · subst hb; simpa using hx
      · exact hall b hb

/-! ## Claim theorems -/

/-- C4: the token refresher is total over its outcomes — a network error, an
unparseable body, a non-200 status or a missing/empty `access_token` all
resolve to `none` (the embedding is a total function into `Option`, so the
promise it models never rejects), and a 200 response with a truthy
`access_token` yields the parsed response merged with
`expires_at = now + (expires_in defaulting to 3600) * 1000`, carrying the
rotated `refresh_token` the provider returned. -/
theorem refreshAccessToken_total_outcomes :
    ∀ (now : Nat) (netError : Bool) (statusCode : Nat)
      (parsed : Option RefreshResponse),
      (netError = true → refreshAccessToken now netError statusCode parsed = none)
      ∧ (parsed = none → refreshAccessToken now netError statusCode parsed = none)
      ∧ (∀ r, parsed = some r →
          (statusCode ≠ 200 ∨ truthyStr r.access_token = false) →
          refreshAccessToken now netError statusCode parsed = none)
      ∧ (∀ r, netError = false → parsed = some r → statusCode = 200 →
          truthyStr r.access_token = true →
          refreshAccessToken now netError statusCode parsed =
            some { access_token := r.access_token
                   refresh_token := r.refresh_token
                   expires_at := some (now + (jsOrNat r.expires_in 3600) * 1000)
                   scope := r.scope }) := by
  intro now netError statusCode parsed
  refine ⟨?_, ?_, ?_, ?_⟩
  · intro h; subst h; simp [refreshAccessToken]
  · intro h; subst h; simp [refreshAccessToken]
  · intro r hp hbad
    subst hp
    cases netError with
    | true => simp [refreshAccessToken]
    | false =>
      have hc : (statusCode == 200 && truthyStr r.access_token) = false := by
        rcases hbad with h | h
        · have : (statusCode == 200) = false := by simpa using h
          simp [this]
        · simp [h]
      simp [refreshAccessToken, hc]
  · intro r hne hp hs hta
    subst hne; subst hp; subst hs
    simp [refreshAccessToken, hta]

/-- Witness for C4 at a concrete 200 response. -/
theorem refreshAccessToken_total_outcomes_witness :
    refreshAccessToken 5 false 200
        (some { access_token := some "at", refresh_token := some "rt",
                expires_in := some 60, scope := none }) =
      some { access_token := some "at", refresh_token := some "rt",
             expires_at := some 60005, scope := none } := by
  have h := (refreshAccessToken_total_outcomes 5 false 200
      (some { access_token := some "at", refresh_token := some "rt",
              expires_in := some 60, scope := none })).2.2.2
      { access_token := some "at", refresh_token := some "rt",
        expires_in := some 60, scope := none } rfl rfl rfl (by decide)
  exact h.trans (by decide)

/-- C6: `save(tr)` followed immediately by `load()` yields back `tr` (hence
an identical `access_token`), for every starting state and even when the
disk write inside `save` fails, because `save` unconditionally fills the
process-wide in-memory slot that `load` consults first. -/
theorem save_load_roundtrip :
    ∀ (tr : TokenRecord) (st : LegacyState) (diskWriteFails : Bool) (now : Nat),
      loadTokenCache (saveTokenCache tr diskWriteFails st).1 now = .found tr ∧
      (saveTokenCache tr diskWriteFails st).1.globalSlot = some tr := by
  intro tr st fails now
  cases fails <;> exact ⟨rfl, rfl⟩

/-- C3 (code-bug exhibit): with an empty global slot and an on-disk record
that is expired but renewable (`expires_at < now`, refresh token present),
`loadTokenCache` hands back the un-awaited refresh promise and
`getAccessTokenAsync` — which does not await `loadTokenCache()` — reads
`undefined` fields off that promise object and returns `undefined`,
whatever the refresh exchange would have produced: the refresh outcome is
never consulted, contradicting the function's own
`@returns {Promise<string|null>}` contract. -/
theorem getAccessTokenAsync_unawaited_refresh_bug :
    loadTokenCache
        { globalSlot := none, cached := none,
          disk := .record { access_token := some "old", refresh_token := some "r",
                            expires_at := some 1000, scope := none } } 2000 =
      .pending "r" ∧
    ∀ legRefresh : String → Option TokenRecord,
      getAccessTokenAsync
          { globalSlot := none, cached := none,
            disk := .record { access_token := some "old", refresh_token := some "r",
                              expires_at := some 1000, scope := none } }
          legRefresh 2000 = .undef :=
  ⟨rfl, fun _ => rfl⟩

/-- C2 (counterexample): the claim demands null for every expired
unrenewable record on every storage path, but a record with
`expires_at = 5 ≤ now = 100` and no refresh token placed in the
process-wide global slot is returned as-is by `load()` and its stale access
token `"x"` by `getAccessTokenAsync()` — the global-slot fast path performs
no expiry or `access_token` check at all. -/
theorem load_global_slot_expired_counterexample :
    loadTokenCache
        { globalSlot := some { access_token := some "x", refresh_token := none,
                               expires_at := some 5, scope := none },
          cached := none, disk := .absent } 100 =
      .found { access_token := some "x", refresh_token := none,
               expires_at := some 5, scope := none } ∧
    getAccessTokenAsync
        { globalSlot := some { access_token := some "x", refresh_token := none,
                               expires_at := some 5, scope := none },
          cached := none, disk := .absent }
        (fun _ => none) 100 = .str "x" :=
  ⟨rfl, rfl⟩

/-- C2 (amended): with the global slot empty, a stored record whose
`(expires_at || 0)` lies strictly below `now` and whose refresh token is
falsy makes `loadTokenCache` return null, and `getAccessTokenAsync` (and,
when the module cache is empty, sync `getAccessToken`) return null; the
registry enforces the same expiry only when reading a token file from disk
(`loadAccountTokens` drops a record with a truthy past `expires_at`), after
which `AccountManager.getAccessToken` returns null for the token-less
account. The global slot, consulted before disk, performs no such check
(see the counterexample), so the "every storage path" strengthening fails
there. -/
theorem expired_unrenewable_null :
    (∀ (tr : TokenRecord) (st : LegacyState)
       (legRefresh : String → Option TokenRecord) (now : Nat),
       st.globalSlot = none → st.disk = .record tr →
       truthyStr tr.refresh_token = false →
       jsOrNat tr.expires_at 0 < now →
       loadTokenCache st now = .nothing ∧
       getAccessTokenAsync st legRefresh now = .jsnull ∧
       (st.cached = none → getAccessToken st now = .jsnull)) ∧
    (∀ (d : RegistryDisk) (aid : String) (t : TokenRecord) (now : Nat),
       lookupAssoc aid d.tokenFiles = some t →
       truthyNat t.expires_at = true →
       jsOrNat t.expires_at 0 < now →
       AccountManager.loadAccountTokens d aid now = none) ∧
    (∀ (accs : List Account) (aid : String)
       (regRefresh : String → Option TokenRecord) (now : Nat) (a : Account),
       accs.find? (fun x => x.id == aid) = some a → a.tokens = none →
       AccountManager.getAccessToken aid accs regRefresh now = .jsnull) := by
  refine ⟨?_, ?_, ?_⟩
  · intro tr st legRefresh now hg hd hrt hexp
    have hload : loadTokenCache st now = .nothing := by
      cases st with
      | mk g c dsk =>
        simp only at hg hd
        subst hg; subst hd
        by_cases hta : truthyStr tr.access_token
        · simp [loadTokenCache, hta, hexp, hrt]
        · simp [loadTokenCache, hta]
    refine ⟨hload, ?_, ?_⟩
    · simp [getAccessTokenAsync, hload]
    · intro hc
      simp [getAccessToken, hc, hload]
  · intro d aid t now hlk htruthy hexp
    simp [AccountManager.loadAccountTokens, hlk, htruthy, hexp]
  · intro accs aid regRefresh now a hfind htok
    simp [AccountManager.getAccessToken, hfind, htok]

/-- Witness for C2 (amended) on the disk path: an expired unrenewable record
in the token file (global slot empty) yields null from load and both
getters. -/
theorem expired_unrenewable_null_witness :
    loadTokenCache
        { globalSlot := none, cached := none,
          disk := .record { access_token := some "x", refresh_token := none,
                            expires_at := some 5, scope := none } } 100 =
      .nothing ∧
    getAccessTokenAsync
        { globalSlot := none, cached := none,
          disk := .record { access_token := some "x", refresh_token := none,
                            expires_at := some 5, scope := none } }
        (fun _ => none) 100 = .jsnull := by
  have h := (expired_unrenewable_null.1
      { access_token := some "x", refresh_token := none,
        expires_at := some 5, scope := none }
      { globalSlot := none, cached := none,
        disk := .record { access_token := some "x", refresh_token := none,
                          expires_at := some 5, scope := none } }
      (fun _ => none) 100 rfl rfl (by decide) (by decide))
  exact ⟨h.1, h.2.1⟩

/-- Unfolded meaning of the registry validity test. -/
theorem tokensValid_iff (a : Account) (now : Nat) :
    AccountManager.tokensValid a now = true ↔
      ∃ t, a.tokens = some t ∧
        (∃ u, t.access_token = some u ∧ u ≠ "") ∧
        (∃ e, t.expires_at = some e ∧ now < e) := by
  unfold AccountManager.tokensValid
  cases htok : a.tokens with
  | none => simp
  | some t =>
    cases hat : t.access_token with
    | none => simp [hat, truthyStr]
    | some u =>
      cases he : t.expires_at with
      | none => simp [hat, he, truthyStr]
      | some e => simp [hat, he, truthyStr]

/-- C5: `getDefaultAccount` returns the first account in insertion order
passing the validity test (`access_token` truthy and `expires_at` strictly
after `now`), skipping every earlier account that fails it, and `none` when
no account passes; in particular, with A (expired, no refresh token)
inserted before B (valid for another hour) it returns B. -/
theorem getDefaultAccount_first_valid :
    ∀ (accs : List Account) (now : Nat),
      (AccountManager.getDefaultAccount accs now = none ↔
        ∀ a ∈ accs, AccountManager.tokensValid a now = false) ∧
      (∀ a, AccountManager.getDefaultAccount accs now = some a →
        AccountManager.tokensValid a now = true ∧
        ∃ l1 l2, accs = l1 ++ a :: l2 ∧
          ∀ b ∈ l1, AccountManager.tokensValid b now = false) ∧
      AccountManager.getDefaultAccount
          [ { id := "A", userPrincipalName := "a@example.com", displayName := "A",
              createdAt := "", lastUsed := "",
              tokens := some { access_token := some "tokA", refresh_token := none,
                               expires_at := some (now - 1), scope := none } },
            { id := "B", userPrincipalName := "b@example.com", displayName := "B",
              createdAt := "", lastUsed := "",
              tokens := some { access_token := some "tokB", refresh_token := none,
                               expires_at := some (now + 3600 * 1000), scope := none } } ]
          now =
        some { id := "B", userPrincipalName := "b@example.com", displayName := "B",
               createdAt := "", lastUsed := "",
               tokens := some { access_token := some "tokB", refresh_token := none,
                                expires_at := some (now + 3600 * 1000), scope := none } } := by
  intro accs now
  refine ⟨?_, ?_, ?_⟩
  · simp [AccountManager.getDefaultAccount, List.find?_eq_none]
  · intro a h
    exact find_some_decomp _ accs a h
  · have hA : AccountManager.tokensValid
        { id := "A", userPrincipalName := "a@example.com", displayName := "A",
          createdAt := "", lastUsed := "",
          tokens := some { access_token := some "tokA", refresh_token := none,
                           expires_at := some (now - 1), scope := none } } now = false := by
      simp [AccountManager.tokensValid, truthyStr]
    have hB : AccountManager.tokensValid
        { id := "B", userPrincipalName := "b@example.com", displayName := "B",
          createdAt := "", lastUsed := "",
          tokens := some { access_token := some "tokB", refresh_token := none,
                           expires_at := some (now + 3600 * 1000), scope := none } } now = true := by
      simp [AccountManager.tokensValid, truthyStr]
    unfold AccountManager.getDefaultAccount
    simp [List.find?_cons, hA, hB]

/-- Witness for C5: the scenario accounts at a concrete clock, obtained from
the first-hit decomposition. -/
theorem getDefaultAccount_first_valid_witness :
    AccountManager.tokensValid
        { id := "B", userPrincipalName := "b@example.com", displayName := "B",
          createdAt := "", lastUsed := "",
          tokens := some { access_token := some "tokB", refresh_token := none,
                           expires_at := some 4600000, scope := none } } 1000000 = true ∧
    ∃ l1 l2,
      [ { id := "A", userPrincipalName := "a@example.com", displayName := "A",
          createdAt := "", lastUsed := "",
          tokens := some { access_token := some "tokA", refresh_token := none,
                           expires_at := some 999999, scope := none } },
        { id := "B", userPrincipalName := "b@example.com", displayName := "B",
          createdAt := "", lastUsed := "",
          tokens := some { access_token := some "tokB", refresh_token := none,
                           expires_at := some 4600000, scope := none } } ] =
        l1 ++
          { id := "B", userPrincipalName := "b@example.com", displayName := "B",
            createdAt := "", lastUsed := "",
            tokens := some { access_token := some "tokB", refresh_token := none,
                             expires_at := some 4600000, scope := none } } :: l2 ∧
      ∀ b ∈ l1, AccountManager.tokensValid b 1000000 = false := by
  exact (getDefaultAccount_first_valid
      [ { id := "A", userPrincipalName := "a@example.com", displayName := "A",
          createdAt := "", lastUsed := "",
          tokens := some { access_token := some "tokA", refresh_token := none,
                           expires_at := some 999999, scope := none } },
        { id := "B", userPrincipalName := "b@example.com", displayName := "B",
          createdAt := "", lastUsed := "",
          tokens := some { access_token := some "tokB", refresh_token := none,
                           expires_at := some 4600000, scope := none } } ]
      1000000).2.1 _ (by decide)

/-- Scrubbing token material does not change the validity test. -/
theorem tokensValid_scrub (a : Account) (now : Nat) :
    AccountManager.tokensValid (scrubTokens a) now =
      AccountManager.tokensValid a now := by
  unfold AccountManager.tokensValid scrubTokens
  cases a.tokens with
  | none => rfl
  | some t =>
    simp only [Option.map_some']
    cases hat : t.access_token with
    | none => simp [hat, truthyStr]
    | some u =>
      by_cases hu : u = ""
      · simp [hat, hu, truthyStr, scrubString]
      · simp [hat, truthyStr, scrubString, hu]

/-- C8: `getAllAccounts` is a projection: each element carries exactly the
id, userPrincipalName, displayName, createdAt, lastUsed of the
corresponding account plus `hasValidTokens`, which is true exactly when
that account holds a record with a truthy `access_token` and
`expires_at > now`; and the output is unchanged when every raw
access/refresh token string is replaced by a placeholder, so no token
material flows into it. -/
theorem getAllAccounts_projection :
    ∀ (accs : List Account) (now : Nat),
      List.Forall₂ (fun (a : Account) (s : AccountManager.AccountSummary) =>
        s.id = a.id ∧ s.userPrincipalName = a.userPrincipalName ∧
        s.displayName = a.displayName ∧ s.createdAt = a.createdAt ∧
        s.lastUsed = a.lastUsed ∧
        (s.hasValidTokens = true ↔
          ∃ t, a.tokens = some t ∧
            (∃ u, t.access_token = some u ∧ u ≠ "") ∧
            (∃ e, t.expires_at = some e ∧ now < e)))
        accs (AccountManager.getAllAccounts accs now) ∧
      AccountManager.getAllAccounts (accs.map scrubTokens) now =
        AccountManager.getAllAccounts accs now := by
  intro accs now
  constructor
  · unfold AccountManager.getAllAccounts
    rw [List.forall₂_map_right_iff]
    rw [List.forall₂_same]
    intro a _
    exact ⟨rfl, rfl, rfl, rfl, rfl, tokensValid_iff a now⟩
  · unfold AccountManager.getAllAccounts
    rw [List.map_map]
    apply List.map_congr_left
    intro a _
    simp only [Function.comp_apply, tokensValid_scrub]
    simp [scrubTokens]

/-- Witness for C8: scrubbing invariance at a concrete registry. -/
theorem getAllAccounts_projection_witness :
    AccountManager.getAllAccounts
        ([ { id := "i", userPrincipalName := "u@x", displayName := "d",
             createdAt := "c", lastUsed := "l",
             tokens := some { access_token := some "secret",
                              refresh_token := some "alsosecret",
                              expires_at := some 99, scope := none } } ].map scrubTokens) 7 =
      AccountManager.getAllAccounts
        [ { id := "i", userPrincipalName := "u@x", displayName := "d",
            createdAt := "c", lastUsed := "l",
            tokens := some { access_token := some "secret",
                             refresh_token := some "alsosecret",
                             expires_at := some 99, scope := none } } ] 7 :=
  (getAllAccounts_projection
    [ { id := "i", userPrincipalName := "u@x", displayName := "d",
        createdAt := "c", lastUsed := "l",
        tokens := some { access_token := some "secret",
                         refresh_token := some "alsosecret",
                         expires_at := some 99, scope := none } } ] 7).2

/-- `find?` over a list whose every hit of the key was replaced by
`account` (with `account.id = newId`) returns `account` whenever some entry
had the key. -/
theorem find_replace (l : List Account) (newId : String) (account : Account)
    (hacc : account.id = newId)
    (hany : l.any (fun a => a.id == newId) = true) :
    (l.map (fun a => if a.id == newId then account else a)).find?
      (fun a => a.id == newId) = some account := by
  induction l with
  | nil => simp at hany
  | cons x xs ih =>
    by_cases hx : (x.id == newId) = true
    · simp only [List.map_cons, hx, if_true]
      exact List.find?_cons_of_pos _ (by simp [hacc])
    · simp only [List.map_cons, hx, if_false, Bool.false_eq_true]
      rw [List.find?_cons_of_neg _ (by simpa using hx)]
      apply ih
      rcases List.any_eq_true.mp hany with ⟨a, ha, hpa⟩
      rcases List.mem_cons.mp ha with rfl | ha
      · exact absurd hpa (by simpa using hx)
      · exact List.any_eq_true.mpr ⟨a, ha, hpa⟩

/-- `find?` skips a failing block. -/
theorem find_append_none {α : Type} (p : α → Bool) (l1 l2 : List α)
    (h : l1.find? p = none) : (l1 ++ l2).find? p = l2.find? p := by
  induction l1 with
  | nil => rfl
  | cons x xs ih =>
    by_cases hx : p x = true
    · rw [List.find?_cons_of_pos _ hx] at h; cases h
    · rw [List.cons_append, List.find?_cons_of_neg _ (by simpa using hx)]
      rw [List.find?_cons_of_neg _ (by simpa using hx)] at h
      exact ih h

/-- C10: `addAccount(u)` with `displayName` absent (JS `null`/omitted)
returns the generated id and stores, retrievable under exactly that id, an
account whose `displayName` falls back to `u` and whose `createdAt` and
`lastUsed` are both the creation instant. -/
theorem addAccount_fresh_defaults :
    ∀ (newId u : String) (tks : Option TokenRecord) (nowIso : String)
      (st : RegistryState),
      (AccountManager.addAccount newId u none tks nowIso st).1 = newId ∧
      AccountManager.getAccount newId
          (AccountManager.addAccount newId u none tks nowIso st).2 =
        some { id := newId, userPrincipalName := u, displayName := u,
               createdAt := nowIso, lastUsed := nowIso, tokens := tks } := by
  intro newId u tks nowIso st
  refine ⟨rfl, ?_⟩
  unfold AccountManager.getAccount AccountManager.addAccount AccountManager.saveAccounts
  simp only [truthyStr]
  by_cases hany : st.accounts.any (fun a => a.id == newId) = true
  · simp only [hany, if_true]
    exact find_replace st.accounts newId _ rfl hany
  · simp only [hany, if_false, Bool.false_eq_true]
    rw [find_append_none _ st.accounts _ (List.find?_eq_none.mpr (by
      intro a ha
      have := (Bool.not_eq_true _).mp (fun hc => hany (List.any_eq_true.mpr ⟨a, ha, hc⟩))
      simp [this]))]
    exact List.find?_cons_of_pos _ (by simp)

theorem lookupAssoc_setAssoc_self {α : Type} (k : String) (v : α)
    (l : List (String × α)) : lookupAssoc k (setAssoc k v l) = some v := by
  induction l with
  | nil => simp [setAssoc, lookupAssoc]
  | cons p rest ih =>
    by_cases hp : p.1 = k
    · simp [setAssoc, hp, lookupAssoc]
    · simp [setAssoc, hp, lookupAssoc, ih]

theorem lookupAssoc_setAssoc_ne {α : Type} (k j : String) (v : α)
    (l : List (String × α)) (h : k ≠ j) :
    lookupAssoc k (setAssoc j v l) = lookupAssoc k l := by
  induction l with
  | nil => simp [setAssoc, lookupAssoc, Ne.symm h]
  | cons p rest ih =>
    by_cases hp : p.1 = j
    · simp [setAssoc, hp, lookupAssoc, Ne.symm h]
    · simp [setAssoc, hp, lookupAssoc, ih]

theorem lookupAssoc_removeAssoc_self {α : Type} (k : String)
    (l : List (String × α)) : lookupAssoc k (removeAssoc k l) = none := by
  induction l with
  | nil => rfl
  | cons p rest ih =>
    by_cases hp : p.1 = k
    · simp [removeAssoc, hp, ih]
    · simp [removeAssoc, hp, lookupAssoc, ih]

theorem lookupAssoc_removeAssoc_ne {α : Type} (k j : String)
    (l : List (String × α)) (h : k ≠ j) :
    lookupAssoc k (removeAssoc j l) = lookupAssoc k l := by
  induction l with
  | nil => rfl
  | cons p rest ih =>
    by_cases hp : p.1 = j
    · have hcond2 : ¬ j = k := Ne.symm h
      have hcond : ¬ p.1 = k := by rw [hp]; exact hcond2
      simp [removeAssoc, hp, lookupAssoc, hcond, hcond2, ih]
    · simp [removeAssoc, hp, lookupAssoc, ih]

/-- The token-file writes performed by `saveAccounts` do not move the file
under key `k` as long as every account that would write to `k` writes back
exactly what is already there. -/
theorem writeTokenFilesFold_lookup (accounts : List Account) (d : RegistryDisk)
    (k : String)
    (h : ∀ a ∈ accounts, a.id = k → ∀ t, a.tokens = some t →
      lookupAssoc k d.tokenFiles = some t) :
    lookupAssoc k (AccountManager.writeTokenFilesFold accounts d).tokenFiles =
      lookupAssoc k d.tokenFiles := by
  induction accounts generalizing d with
  | nil => rfl
  | cons x xs ih =>
    have hexp : AccountManager.writeTokenFilesFold (x :: xs) d =
        AccountManager.writeTokenFilesFold xs
          (match x.tokens with
           | some t => AccountManager.saveAccountTokens x.id t d
           | none => d) := rfl
    rw [hexp]
    cases hx : x.tokens with
    | none =>
      simp only [hx]
      exact ih d (fun a ha => h a (List.mem_cons_of_mem _ ha))
    | some t =>
      simp only [hx]
      by_cases hid : x.id = k
      · have hlk := h x (List.mem_cons_self x xs) hid t hx
        have hstep :
            lookupAssoc k (AccountManager.saveAccountTokens x.id t d).tokenFiles =
              lookupAssoc k d.tokenFiles := by
          subst hid
          simp [AccountManager.saveAccountTokens, lookupAssoc_setAssoc_self, hlk]
        have hnew : ∀ a ∈ xs, a.id = k → ∀ t2, a.tokens = some t2 →
            lookupAssoc k (AccountManager.saveAccountTokens x.id t d).tokenFiles =
              some t2 := by
          intro a ha hida t2 ht2
          rw [hstep]
          exact h a (List.mem_cons_of_mem _ ha) hida t2 ht2
        rw [ih _ hnew, hstep]
      · have hstep :
            lookupAssoc k (AccountManager.saveAccountTokens x.id t d).tokenFiles =
              lookupAssoc k d.tokenFiles := by
          simpa [AccountManager.saveAccountTokens] using
            lookupAssoc_setAssoc_ne k x.id t d.tokenFiles (fun hc => hid hc.symm)
        have hnew : ∀ a ∈ xs, a.id = k → ∀ t2, a.tokens = some t2 →
            lookupAssoc k (AccountManager.saveAccountTokens x.id t d).tokenFiles =
              some t2 := by
          intro a ha hida t2 ht2
          rw [hstep]
          exact h a (List.mem_cons_of_mem _ ha) hida t2 ht2
        rw [ih _ hnew, hstep]

/-- C7: `removeAccount` of a tracked id returns true, leaves exactly the
accounts with other ids (in order), leaves no token file under the removed
id, and persists an index made of precisely the remaining accounts without
their token material; an unknown id returns false and changes nothing; and
`addAccount` of a fresh account followed by `removeAccount` of the returned
id leaves zero entries for it in `getAllAccounts` and no token file for it
on disk. -/
theorem removeAccount_spec :
    ∀ (st : RegistryState) (accountId : String),
      (st.accounts.any (fun a => a.id == accountId) = true →
        (AccountManager.removeAccount accountId st).2 = true ∧
        (AccountManager.removeAccount accountId st).1.accounts =
          st.accounts.filter (fun a => !(a.id == accountId)) ∧
        lookupAssoc accountId
          (AccountManager.removeAccount accountId st).1.disk.tokenFiles = none ∧
        (AccountManager.removeAccount accountId st).1.disk.indexFile =
          (st.accounts.filter (fun a => !(a.id == accountId))).map
            (fun a => (a.id, AccountManager.stripTokens a))) ∧
      (st.accounts.any (fun a => a.id == accountId) = false →
        AccountManager.removeAccount accountId st = (st, false)) ∧
      (∀ (u : String) (dn : Option String) (tks : Option TokenRecord)
         (nowIso : String) (now : Nat),
        st.accounts.any (fun a => a.id == accountId) = false →
        (AccountManager.removeAccount accountId
            (AccountManager.addAccount accountId u dn tks nowIso st).2).2 = true ∧
        (AccountManager.getAllAccounts
            (AccountManager.removeAccount accountId
              (AccountManager.addAccount accountId u dn tks nowIso st).2).1.accounts
            now).all (fun s => !(s.id == accountId)) = true ∧
        lookupAssoc accountId
          (AccountManager.removeAccount accountId
            (AccountManager.addAccount accountId u dn tks nowIso st).2).1.disk.tokenFiles =
          none) := by
  intro st accountId
  have present : ∀ s2 : RegistryState,
      s2.accounts.any (fun a => a.id == accountId) = true →
      (AccountManager.removeAccount accountId s2).2 = true ∧
      (AccountManager.removeAccount accountId s2).1.accounts =
        s2.accounts.filter (fun a => !(a.id == accountId)) ∧
      lookupAssoc accountId
        (AccountManager.removeAccount accountId s2).1.disk.tokenFiles = none ∧
      (AccountManager.removeAccount accountId s2).1.disk.indexFile =
        (s2.accounts.filter (fun a => !(a.id == accountId))).map
          (fun a => (a.id, AccountManager.stripTokens a)) := by
    intro s2 hany
    unfold AccountManager.removeAccount
    rw [if_pos hany]
    refine ⟨rfl, rfl, ?_, rfl⟩
    have hvac : ∀ a ∈ s2.accounts.filter (fun a => !(a.id == accountId)),
        a.id = accountId → ∀ t, a.tokens = some t →
        lookupAssoc accountId
          (removeAssoc accountId s2.disk.tokenFiles) = some t := by
      intro a ha hid t _
      exfalso
      have hmem := (List.mem_filter.mp ha).2
      simp [hid] at hmem
    exact (writeTokenFilesFold_lookup _ _ _ hvac).trans
      (lookupAssoc_removeAssoc_self _ _)
  refine ⟨present st, ?_, ?_⟩
  · intro hnone
    unfold AccountManager.removeAccount
    simp [hnone]
  · intro u dn tks nowIso now hfresh
    have hadd : (AccountManager.addAccount accountId u dn tks nowIso st).2.accounts =
        st.accounts ++
          [{ id := accountId, userPrincipalName := u
             displayName := if truthyStr dn then dn.getD "" else u
             createdAt := nowIso, lastUsed := nowIso, tokens := tks }] := by
      unfold AccountManager.addAccount
      simp only [hfresh, Bool.false_eq_true, if_false]
      rfl
    have hany2 : (AccountManager.addAccount accountId u dn tks nowIso st).2.accounts.any
        (fun a => a.id == accountId) = true := by
      rw [hadd]
      simp
    obtain ⟨hret, haccs, hlk, _⟩ := present _ hany2
    refine ⟨hret, ?_, hlk⟩
    rw [haccs]
    rw [List.all_eq_true]
    intro s hs
    unfold AccountManager.getAllAccounts at hs
    rcases List.mem_map.mp hs with ⟨a, ha, rfl⟩
    exact (List.mem_filter.mp ha).2

/-- Witness for C7: adding then removing a fresh account in a one-account
registry leaves no trace of it. -/
theorem removeAccount_spec_witness :
    (AccountManager.removeAccount "new"
        (AccountManager.addAccount "new" "n@x" none
          (some { access_token := some "t", refresh_token := none,
                  expires_at := some 9, scope := none }) "2026"
          { accounts := [{ id := "old", userPrincipalName := "o@x",
                           displayName := "O", createdAt := "", lastUsed := "",
                           tokens := none }],
            disk := { indexFile := [], tokenFiles := [] } }).2).2 = true ∧
    (AccountManager.getAllAccounts
        (AccountManager.removeAccount "new"
          (AccountManager.addAccount "new" "n@x" none
            (some { access_token := some "t", refresh_token := none,
                    expires_at := some 9, scope := none }) "2026"
            { accounts := [{ id := "old", userPrincipalName := "o@x",
                             displayName := "O", createdAt := "", lastUsed := "",
                             tokens := none }],
              disk := { indexFile := [], tokenFiles := [] } }).2).1.accounts
        50).all (fun s => !(s.id == "new")) = true ∧
    lookupAssoc "new"
        (AccountManager.removeAccount "new"
          (AccountManager.addAccount "new" "n@x" none
            (some { access_token := some "t", refresh_token := none,
                    expires_at := some 9, scope := none }) "2026"
            { accounts := [{ id := "old", userPrincipalName := "o@x",
                             displayName := "O", createdAt := "", lastUsed := "",
                             tokens := none }],
              disk := { indexFile := [], tokenFiles := [] } }).2).1.disk.tokenFiles =
      none := by
  exact (removeAccount_spec
      { accounts := [{ id := "old", userPrincipalName := "o@x",
                       displayName := "O", createdAt := "", lastUsed := "",
                       tokens := none }],
        disk := { indexFile := [], tokenFiles := [] } } "new").2.2
    "n@x" none
    (some { access_token := some "t", refresh_token := none,
            expires_at := some 9, scope := none }) "2026" 50 (by decide)

/-- C9: for an account `y` tracked by the registry whose id differs from
`x`, with ids unambiguous and `y`'s token file in sync with its in-memory
record (the registry's convergence invariant), `removeAccount x` and
`updateAccountTokens x` keep `y`'s entry in the map untouched and leave the
content stored under `y`'s token file unchanged. -/
theorem registry_mutation_frame :
    ∀ (st : RegistryState) (x : String) (y : Account),
      y ∈ st.accounts → y.id ≠ x →
      (∀ z ∈ st.accounts, z.id = y.id → z = y) →
      (∀ t, y.tokens = some t → lookupAssoc y.id st.disk.tokenFiles = some t) →
      (y ∈ (AccountManager.removeAccount x st).1.accounts ∧
       lookupAssoc y.id (AccountManager.removeAccount x st).1.disk.tokenFiles =
         lookupAssoc y.id st.disk.tokenFiles) ∧
      (∀ (tks : TokenRecord) (nowIso : String),
        y ∈ (AccountManager.updateAccountTokens x tks nowIso st).1.accounts ∧
        lookupAssoc y.id
            (AccountManager.updateAccountTokens x tks nowIso st).1.disk.tokenFiles =
          lookupAssoc y.id st.disk.tokenFiles) := by
  intro st x y hy hyx huniq hsync
  constructor
  · by_cases hany : st.accounts.any (fun a => a.id == x) = true
    · unfold AccountManager.removeAccount
      simp only [hany, if_true]
      constructor
      · show y ∈ st.accounts.filter (fun a => !(a.id == x))
        exact List.mem_filter.mpr ⟨hy, by simp [hyx]⟩
      · have hpre : lookupAssoc y.id (removeAssoc x st.disk.tokenFiles) =
            lookupAssoc y.id st.disk.tokenFiles :=
          lookupAssoc_removeAssoc_ne y.id x st.disk.tokenFiles hyx
        have hh : ∀ a ∈ st.accounts.filter (fun a => !(a.id == x)),
            a.id = y.id → ∀ t, a.tokens = some t →
            lookupAssoc y.id (removeAssoc x st.disk.tokenFiles) = some t := by
          intro a ha hida t ht
          have haz := huniq a (List.mem_of_mem_filter ha) hida
          subst haz
          rw [hpre]
          exact hsync t ht
        exact (writeTokenFilesFold_lookup _ _ _ hh).trans hpre
    · unfold AccountManager.removeAccount
      rw [if_neg (by simpa using hany)]
      exact ⟨hy, rfl⟩
  · intro tks nowIso
    by_cases hany : st.accounts.any (fun a => a.id == x) = true
    · unfold AccountManager.updateAccountTokens
      simp only [hany, if_true]
      have hyid : (y.id == x) = false := by simp [hyx]
      constructor
      · show y ∈ st.accounts.map (fun a =>
          if a.id == x then { a with tokens := some tks, lastUsed := nowIso } else a)
        exact List.mem_map.mpr ⟨y, hy, by simp [hyid]⟩
      · have hpre : lookupAssoc y.id
            (AccountManager.saveAccountTokens x tks st.disk).tokenFiles =
            lookupAssoc y.id st.disk.tokenFiles := by
          simpa [AccountManager.saveAccountTokens] using
            lookupAssoc_setAssoc_ne y.id x tks st.disk.tokenFiles hyx
        have hh : ∀ a ∈ st.accounts.map (fun a =>
              if a.id == x then { a with tokens := some tks, lastUsed := nowIso } else a),
            a.id = y.id → ∀ t, a.tokens = some t →
            lookupAssoc y.id
              (AccountManager.saveAccountTokens x tks st.disk).tokenFiles = some t := by
          intro a ha hida t ht
          rcases List.mem_map.mp ha with ⟨z, hz, hza⟩
          by_cases hzx : (z.id == x) = true
          · rw [if_pos hzx] at hza
            exfalso
            have hax : a.id = x := by
              rw [← hza]
              simpa using hzx
            exact hyx (hida ▸ hax)
          · rw [if_neg (by simpa using hzx)] at hza
            subst hza
            have hay := huniq z hz hida
            subst hay
            rw [hpre]
            exact hsync t ht
        exact (writeTokenFilesFold_lookup _ _ _ hh).trans hpre
    · unfold AccountManager.updateAccountTokens
      rw [if_neg (by simpa using hany)]
      exact ⟨hy, rfl⟩

/-- Witness for C9: a two-account registry in sync; removing and updating
account `x` leaves `y`'s entry and token file untouched. -/
theorem registry_mutation_frame_witness :
    ({ id := "y", userPrincipalName := "y@x", displayName := "Y",
       createdAt := "", lastUsed := "",
       tokens := some { access_token := some "ty", refresh_token := none,
                        expires_at := some 9, scope := none } } : Account) ∈
      (AccountManager.removeAccount "x"
        { accounts :=
            [ { id := "y", userPrincipalName := "y@x", displayName := "Y",
                createdAt := "", lastUsed := "",
                tokens := some { access_token := some "ty", refresh_token := none,
                                 expires_at := some 9, scope := none } },
              { id := "x", userPrincipalName := "x@x", displayName := "X",
                createdAt := "", lastUsed := "", tokens := none } ],
          disk := { indexFile := [],
                    tokenFiles :=
                      [("y", { access_token := some "ty", refresh_token := none,
                               expires_at := some 9, scope := none })] } }).1.accounts ∧
    lookupAssoc "y"
        (AccountManager.removeAccount "x"
          { accounts :=
              [ { id := "y", userPrincipalName := "y@x", displayName := "Y",
                  createdAt := "", lastUsed := "",
                  tokens := some { access_token := some "ty", refresh_token := none,
                                   expires_at := some 9, scope := none } },
                { id := "x", userPrincipalName := "x@x", displayName := "X",
                  createdAt := "", lastUsed := "", tokens := none } ],
            disk := { indexFile := [],
                      tokenFiles :=
                        [("y", { access_token := some "ty", refresh_token := none,
                                 expires_at := some 9, scope := none })] } }).1.disk.tokenFiles =
      some { access_token := some "ty", refresh_token := none,
             expires_at := some 9, scope := none } := by
  have h := registry_mutation_frame
      { accounts :=
          [ { id := "y", userPrincipalName := "y@x", displayName := "Y",
              createdAt := "", lastUsed := "",
              tokens := some { access_token := some "ty", refresh_token := none,
                               expires_at := some 9, scope := none } },
            { id := "x", userPrincipalName := "x@x", displayName := "X",
              createdAt := "", lastUsed := "", tokens := none } ],
        disk := { indexFile := [],
                  tokenFiles :=
                    [("y", { access_token := some "ty", refresh_token := none,
                             expires_at := some 9, scope := none })] } }
      "x"
      { id := "y", userPrincipalName := "y@x", displayName := "Y",
        createdAt := "", lastUsed := "",
        tokens := some { access_token := some "ty", refresh_token := none,
                         expires_at := some 9, scope := none } }
      (by decide) (by decide) (by decide)
      (by
        intro t ht
        injection ht with hti
        subst hti
        rfl)
  exact ⟨h.1.1, h.1.2.trans rfl⟩

/-- C1 (counterexample): with an empty registry and the legacy file holding
a live, unexpired token (`expires_at = 1001000 > now = 1000000`) that sits
inside the five-minute proactive-refresh window with a refresh token whose
exchange fails, `ensureAuthenticated()` throws instead of succeeding with
that access token, so the claim's legacy-fallback scenario does not hold
for every live unexpired token. -/
theorem ensureAuthenticated_live_legacy_counterexample :
    ensureAuthenticated none false [] (fun _ => none)
        { globalSlot := none, cached := none,
          disk := .record { access_token := some "tok", refresh_token := some "r",
                            expires_at := some 1001000, scope := none } }
        (fun _ => none) 1000000 =
      .error "Authentication required - no accounts configured" ∧
    (1000000 : Nat) < 1001000 :=
  ⟨rfl, by decide⟩

/-- C1 (amended): `ensureAuthenticated` resolves in exactly this order:
`forceNew` throws "Authentication required" regardless of stored state; a
(truthy) explicit `accountId` returns the registry's
`getAccessToken(accountId)` string and throws when that is falsy; with no
`accountId` it tries `getDefaultAccount()` and that account's
`getAccessToken`, falling back to the legacy `getAccessTokenAsync()` when
the registry yields nothing, and throws "authentication required" when no
path yields a token. The legacy-fallback success scenario holds for a live
stored token that is beyond the five-minute refresh window or has no
refresh token; inside that window with a refresh token present the call
refreshes first instead of returning the stored token (see the
counterexample). -/
theorem ensureAuthenticated_resolution_order :
    ∀ (reg : List Account) (regRefresh : String → Option TokenRecord)
      (legacy : LegacyState) (legRefresh : String → Option TokenRecord)
      (now : Nat),
      (∀ accountId : Option String,
        ensureAuthenticated accountId true reg regRefresh legacy legRefresh now =
          .error "Authentication required") ∧
      (∀ aid s, truthyStr (some aid) = true →
        AccountManager.getAccessToken aid reg regRefresh now = .str s → s ≠ "" →
        ensureAuthenticated (some aid) false reg regRefresh legacy legRefresh now =
          .ok s) ∧
      (∀ aid, truthyStr (some aid) = true →
        jsTruthy (AccountManager.getAccessToken aid reg regRefresh now) = false →
        ensureAuthenticated (some aid) false reg regRefresh legacy legRefresh now =
          .error ("Authentication required for account " ++ aid)) ∧
      (∀ acc s, AccountManager.getDefaultAccount reg now = some acc →
        AccountManager.getAccessToken acc.id reg regRefresh now = .str s → s ≠ "" →
        ensureAuthenticated none false reg regRefresh legacy legRefresh now = .ok s) ∧
      (∀ s,
        (AccountManager.getDefaultAccount reg now = none ∨
          ∃ acc, AccountManager.getDefaultAccount reg now = some acc ∧
            jsTruthy (AccountManager.getAccessToken acc.id reg regRefresh now) = false) →
        getAccessTokenAsync legacy legRefresh now = .str s → s ≠ "" →
        ensureAuthenticated none false reg regRefresh legacy legRefresh now = .ok s) ∧
      ((AccountManager.getDefaultAccount reg now = none ∨
          ∃ acc, AccountManager.getDefaultAccount reg now = some acc ∧
            jsTruthy (AccountManager.getAccessToken acc.id reg regRefresh now) = false) →
        jsTruthy (getAccessTokenAsync legacy legRefresh now) = false →
        ensureAuthenticated none false reg regRefresh legacy legRefresh now =
          .error "Authentication required - no accounts configured") ∧
      (∀ tr s, AccountManager.getDefaultAccount reg now = none →
        legacy.globalSlot = none → legacy.disk = .record tr →
        tr.access_token = some s → s ≠ "" →
        now ≤ jsOrNat tr.expires_at 0 →
        (now + fiveMinutes ≤ jsOrNat tr.expires_at 0 ∨
          truthyStr tr.refresh_token = false) →
        ensureAuthenticated none false reg regRefresh legacy legRefresh now = .ok s) := by
  intro reg regRefresh legacy legRefresh now
  have hviaNone :
      ∀ (h : AccountManager.getDefaultAccount reg now = none ∨
          ∃ acc, AccountManager.getDefaultAccount reg now = some acc ∧
            jsTruthy (AccountManager.getAccessToken acc.id reg regRefresh now) = false),
        (match AccountManager.getDefaultAccount reg now with
         | some acc =>
           match AccountManager.getAccessToken acc.id reg regRefresh now with
           | .str s => if !(s == "") then some s else none
           | _ => none
         | none => none) = (none : Option String) := by
    intro h
    rcases h with h | ⟨acc, hacc, hfalse⟩
    · rw [h]
    · rw [hacc]
      show (match AccountManager.getAccessToken acc.id reg regRefresh now with
            | JsStr.str s => if !(s == "") then some s else none
            | _ => none) = (none : Option String)
      cases hres : AccountManager.getAccessToken acc.id reg regRefresh now with
      | undef => rfl
      | jsnull => rfl
      | str s =>
        rw [hres] at hfalse
        simp only [jsTruthy] at hfalse
        simp [hfalse]
  refine ⟨?_, ?_, ?_, ?_, ?_, ?_, ?_⟩
  · intro accountId
    rfl
  · intro aid s htr hget hs
    simp [ensureAuthenticated, htr, hget, hs]
  · intro aid htr hfalse
    cases hres : AccountManager.getAccessToken aid reg regRefresh now with
    | undef => simp [ensureAuthenticated, htr, hres]
    | jsnull => simp [ensureAuthenticated, htr, hres]
    | str s =>
      rw [hres] at hfalse
      simp only [jsTruthy] at hfalse
      simp [ensureAuthenticated, htr, hres, hfalse]
  · intro acc s hdef hget hs
    have hvia : (match AccountManager.getDefaultAccount reg now with
         | some acc =>
           match AccountManager.getAccessToken acc.id reg regRefresh now with
           | .str s => if !(s == "") then some s else none
           | _ => none
         | none => none) = some s := by
      rw [hdef]
      show (match AccountManager.getAccessToken acc.id reg regRefresh now with
            | JsStr.str s => if !(s == "") then some s else none
            | _ => none) = some s
      rw [hget]
      show (if !(s == "") then some s else none) = some s
      simp [hs]
    simp only [ensureAuthenticated]
    rw [if_neg (by simp), if_neg (by simp [truthyStr]), hvia]
  · intro s hnothing hleg hs
    have hvia := hviaNone hnothing
    simp only [ensureAuthenticated]
    rw [if_neg (by simp), if_neg (by simp [truthyStr]), hvia]
    show (match getAccessTokenAsync legacy legRefresh now with
          | JsStr.str s =>
            if !(s == "") then Except.ok s
            else Except.error "Authentication required - no accounts configured"
          | _ => Except.error "Authentication required - no accounts configured") =
        Except.ok s
    rw [hleg]
    show (if !(s == "") then Except.ok s
          else
            (Except.error "Authentication required - no accounts configured" :
              Except String String)) = Except.ok s
    simp [hs]
  · intro hnothing hfalse
    have hvia := hviaNone hnothing
    simp only [ensureAuthenticated]
    rw [if_neg (by simp), if_neg (by simp [truthyStr]), hvia]
    show (match getAccessTokenAsync legacy legRefresh now with
          | JsStr.str s =>
            if !(s == "") then Except.ok s
            else Except.error "Authentication required - no accounts configured"
          | _ => Except.error "Authentication required - no accounts configured") =
        Except.error "Authentication required - no accounts configured"
    cases hres : getAccessTokenAsync legacy legRefresh now with
    | undef => rfl
    | jsnull => rfl
    | str s =>
      rw [hres] at hfalse
      simp only [jsTruthy] at hfalse
      simp [hfalse]
  · intro tr s hdef hg hd hat hs hle hwin
    have hload : loadTokenCache legacy now = .found tr := by
      cases legacy with
      | mk g c dsk =>
        simp only at hg hd
        subst hg
        subst hd
        have htra : truthyStr tr.access_token = true := by simp [hat, truthyStr, hs]
        have hnotgt : ¬ (now > jsOrNat tr.expires_at 0) := by omega
        simp [loadTokenCache, htra, hnotgt]
    have hleg : getAccessTokenAsync legacy legRefresh now = .str s := by
      unfold getAccessTokenAsync
      rw [hload]
      have hcond : (decide (now + fiveMinutes > jsOrNat tr.expires_at 0) &&
          truthyStr tr.refresh_token) = false := by
        rcases hwin with hw | hw
        · have : decide (now + fiveMinutes > jsOrNat tr.expires_at 0) = false := by
            simp
            omega
          simp [this]
        · simp [hw]
      simp only [hcond, Bool.false_eq_true, if_false]
      simp [hat, jsOfOpt]
    have hvia := hviaNone (Or.inl hdef)
    simp only [ensureAuthenticated]
    rw [if_neg (by simp), if_neg (by simp [truthyStr]), hvia]
    show (match getAccessTokenAsync legacy legRefresh now with
          | JsStr.str s =>
            if !(s == "") then Except.ok s
            else Except.error "Authentication required - no accounts configured"
          | _ => Except.error "Authentication required - no accounts configured") =
        Except.ok s
    rw [hleg]
    show (if !(s == "") then Except.ok s
          else
            (Except.error "Authentication required - no accounts configured" :
              Except String String)) = Except.ok s
    simp [hs]

/-- Witness for C1 (amended): empty registry, legacy file holding a live
token comfortably outside the refresh window; the gate succeeds with that
token via the legacy fallback. -/
theorem ensureAuthenticated_resolution_order_witness :
    ensureAuthenticated none false [] (fun _ => none)
        { globalSlot := none, cached := none,
          disk := .record { access_token := some "tok", refresh_token := some "r",
                            expires_at := some 10000000, scope := none } }
        (fun _ => none) 1000 = .ok "tok" := by
  have h := ensureAuthenticated_resolution_order [] (fun _ => none)
      { globalSlot := none, cached := none,
        disk := .record { access_token := some "tok", refresh_token := some "r",
                          expires_at := some 10000000, scope := none } }
      (fun _ => none) 1000
  exact h.2.2.2.2.2.2
    { access_token := some "tok", refresh_token := some "r",
      expires_at := some 10000000, scope := none } "tok"
    rfl rfl rfl rfl (by decide) (by decide) (Or.inl (by decide))

end OutlookMCP
